import Mathlib

/-!
Verification development for the snarkVM fragments:
  * `ledger/block/src/transactions/confirmed/mod.rs` (`ConfirmedTransaction`),
  * `circuit/environment/src/traits/inject.rs` (`Inject` and its container lifts),
  * `circuits/src/models/circuit.rs` (thread-local `Circuit` environment).

The Rust data model is embedded shallowly: enums become inductives, fallible
constructors return `Except`, the thread-local circuit slot becomes explicit
state passing. External collaborators (`Transaction`, `Rejected`,
`FinalizeOperation`, `ConstraintSystem`, `CircuitScope`) are modelled from the
specification's description of their observable surface, since their sources
are not part of the repository fragment.
-/

namespace SnarkVM

/-- Mode of a circuit variable (`Constant`, `Public`, `Private`). -/
inductive Mode where
  | Constant
  | Public
  | Private
deriving DecidableEq, Repr

/-- Modelled from the spec: `FinalizeOperation` is an opaque tagged union with
six observed variants; only the variant tag is ever inspected by the code under
verification, the payloads are opaque identifiers. -/
inductive FinalizeOperation where
  | InitializeMapping (mappingId : Nat)
  | InsertKeyValue (mappingId keyId valueId : Nat)
  | UpdateKeyValue (mappingId index keyId valueId : Nat)
  | RemoveKeyValue (mappingId index : Nat)
  | ReplaceMapping (mappingId : Nat)
  | RemoveMapping (mappingId : Nat)
deriving DecidableEq, Repr

/-- Modelled from the spec: a program declares a list of mappings; only the
count of mappings is inspected (`program.mappings().len()`). -/
structure Program where
  mappings : List Nat
deriving DecidableEq, Repr

/-- Modelled from the spec: a deployment provides `program()`. -/
structure Deployment where
  program : Program
deriving DecidableEq, Repr

/-- Modelled from the spec: a fee transition; the code inspects
`is_fee_public()` and otherwise treats the fee as opaque. -/
structure Fee where
  transitionId : Nat
  is_fee_public : Bool
deriving DecidableEq, Repr

/-- Modelled from the spec: a program owner (opaque). -/
structure ProgramOwner where
  ownerId : Nat
deriving DecidableEq, Repr

/-- Modelled from the spec: an execution (opaque). -/
structure Execution where
  executionId : Nat
deriving DecidableEq, Repr

/-- Modelled from the spec: `Transaction` is external, with variants
`Deploy`, `Execute`, `Fee`; it provides `id()`, `is_execute()`, `is_fee()`,
`fee_transition()` (optional), `deployment()`/`owner()`/`execution()`
(optional) and the constructors `from_deployment`, `from_execution`,
`from_fee`. The spec lists `fee_transition()` as optional, so the deploy and
execute variants carry an optional fee. -/
inductive Transaction where
  | Deploy (txid : Nat) (owner : ProgramOwner) (deployment : Deployment) (fee : Option Fee)
  | Execute (txid : Nat) (execution : Execution) (fee : Option Fee)
  | Fee (txid : Nat) (fee : Fee)
deriving DecidableEq, Repr

namespace Transaction

/-- Modelled from the spec: `Transaction::id()`. -/
def id : Transaction → Nat
  | .Deploy i _ _ _ => i
  | .Execute i _ _ => i
  | .Fee i _ => i

/-- `Transaction::is_deploy()`: true iff the transaction is a deploy. -/
def is_deploy : Transaction → Bool
  | .Deploy _ _ _ _ => true
  | _ => false

/-- Modelled from the spec: `Transaction::is_execute()`. -/
def is_execute : Transaction → Bool
  | .Execute _ _ _ => true
  | _ => false

/-- Modelled from the spec: `Transaction::is_fee()`. -/
def is_fee : Transaction → Bool
  | .Fee _ _ => true
  | _ => false

/-- Modelled from the spec: `Transaction::fee_transition()`, optional. -/
def fee_transition : Transaction → Option SnarkVM.Fee
  | .Deploy _ _ _ f => f
  | .Execute _ _ f => f
  | .Fee _ f => some f

/-- The deployed program of a deploy transaction, as read by
`accepted_deploy`'s match (`deployment.program()`). -/
def deployed_program : Transaction → Option Program
  | .Deploy _ _ d _ => some d.program
  | _ => none

/-- Modelled from the spec: the transaction id is derived from the payload;
the spec does not fix the computation, so an unspecified injective-enough
encoding is used (no claim inspects it). -/
def deployTxId (owner : ProgramOwner) (d : SnarkVM.Deployment) (f : SnarkVM.Fee) : Nat :=
  Nat.pair owner.ownerId (Nat.pair d.program.mappings.length f.transitionId)

/-- Modelled from the spec: id of a transaction built from an execution. -/
def execTxId (e : SnarkVM.Execution) (f : Option SnarkVM.Fee) : Nat :=
  Nat.pair e.executionId (match f with | some fee => fee.transitionId + 1 | none => 0)

/-- Modelled from the spec: `Transaction::from_deployment(owner, deployment, fee)`. -/
def from_deployment (owner : ProgramOwner) (d : SnarkVM.Deployment) (f : SnarkVM.Fee) : Transaction :=
  .Deploy (deployTxId owner d f) owner d (some f)

/-- Modelled from the spec: `Transaction::from_execution(execution, fee)`;
the fee argument is optional and the spec states no failure condition. -/
def from_execution (e : SnarkVM.Execution) (f : Option SnarkVM.Fee) : Transaction :=
  .Execute (execTxId e f) e f

end Transaction

/-- Modelled from the spec: `Rejected` is external, with variants
`Deployment(program_owner, deployment)` and `Execution(execution)`. -/
inductive Rejected where
  | Deployment (program_owner : ProgramOwner) (deployment : Deployment)
  | Execution (execution : Execution)
deriving DecidableEq, Repr

namespace Rejected

/-- Modelled from the spec: `Rejected::is_deployment()`. -/
def is_deployment : Rejected → Bool
  | .Deployment _ _ => true
  | .Execution _ => false

/-- Modelled from the spec: `Rejected::is_execution()`. -/
def is_execution : Rejected → Bool
  | .Deployment _ _ => false
  | .Execution _ => true

/-- Modelled from the spec: `Rejected::program_owner()`, `Some` only for the
deployment variant. -/
def program_owner : Rejected → Option ProgramOwner
  | .Deployment o _ => some o
  | .Execution _ => none

/-- Modelled from the spec: `Rejected::deployment()`, `Some` only for the
deployment variant. -/
def deployment : Rejected → Option SnarkVM.Deployment
  | .Deployment _ d => some d
  | .Execution _ => none

/-- Modelled from the spec: `Rejected::execution()`, `Some` only for the
execution variant. -/
def execution : Rejected → Option SnarkVM.Execution
  | .Deployment _ _ => none
  | .Execution e => some e

/-- Modelled from the spec: `Rejected::to_unconfirmed_id(fee_transition)`
reconstructs the pre-confirmation transaction id from the rejected payload and
the fee transition; the spec fixes no computation, so an unspecified encoding
is used (no claim inspects the value, only that the accepted branches never
reach it). -/
def to_unconfirmed_id (r : Rejected) (f : Option SnarkVM.Fee) : Nat :=
  match r with
  | .Deployment o d => Nat.pair 0 (Transaction.deployTxId o d (f.getD ⟨0, false⟩))
  | .Execution e => Nat.pair 1 (Transaction.execTxId e f)

end Rejected

/-- The semantic error tags of the confirmed-transaction constructors and
accessors (the Rust code raises `anyhow` string errors; the spec names them). -/
inductive CtError where
  | WrongTransactionKind
  | MissingFee
  | InvalidFinalizeOpForDeploy
  | InvalidFinalizeOpForExecute
  | MappingCountMismatch
  | FinalizeShapeMismatch
  | RejectedKindMismatch
  | MissingOwner
  | MissingDeployment
  | MissingExecution
deriving DecidableEq, Repr

/-- `ConfirmedTransaction<N>`: the four-variant tagged union of
`confirmed/mod.rs`. -/
inductive ConfirmedTransaction where
  | AcceptedDeploy (index : Nat) (transaction : Transaction)
      (finalize : List FinalizeOperation)
  | AcceptedExecute (index : Nat) (transaction : Transaction)
      (finalize : List FinalizeOperation)
  | RejectedDeploy (index : Nat) (transaction : Transaction) (rejected : Rejected)
  | RejectedExecute (index : Nat) (transaction : Transaction) (rejected : Rejected)
deriving DecidableEq, Repr

namespace ConfirmedTransaction

/-- The `try_fold` of `accepted_deploy`: counts `InitializeMapping` and
`UpdateKeyValue` operations left to right, failing at the first operation of
any other variant (mirrors `finalize_operations.iter().try_fold((0, 0), ...)`). -/
def deployOpCounts (init update : Nat) :
    List FinalizeOperation → Except CtError (Nat × Nat)
  | [] => .ok (init, update)
  | op :: rest =>
    match op with
    | .InitializeMapping _ => deployOpCounts (init + 1) update rest
    | .UpdateKeyValue _ _ _ _ => deployOpCounts init (update + 1) rest
    | _ => .error .InvalidFinalizeOpForDeploy

/-- `ConfirmedTransaction::accepted_deploy(index, transaction, finalize_operations)`. -/
def accepted_deploy (index : Nat) (transaction : Transaction)
    (finalize_operations : List FinalizeOperation) :
    Except CtError ConfirmedTransaction :=
  match transaction with
  | .Deploy _ _ deployment _ =>
    match transaction.fee_transition with
    | none => .error .MissingFee
    | some fee =>
      let num_fee_finalize_operations := if fee.is_fee_public then 1 else 0
      match deployOpCounts 0 0 finalize_operations with
      | .error e => .error e
      | .ok (initialize_mapping_count, update_key_value_count) =>
        if deployment.program.mappings.length ≠ initialize_mapping_count then
          .error .MappingCountMismatch
        else if update_key_value_count ≠ num_fee_finalize_operations ∨
            initialize_mapping_count + update_key_value_count ≠
              finalize_operations.length then
          .error .FinalizeShapeMismatch
        else
          .ok (.AcceptedDeploy index transaction finalize_operations)
  | .Execute _ _ _ => .error .WrongTransactionKind
  | .Fee _ _ => .error .WrongTransactionKind

/-- The per-element check of `accepted_execute`: the first `*Mapping` variant
fails (mirrors the `for operation in finalize_operations.iter()` loop). -/
def executeOpsCheck : List FinalizeOperation → Except CtError Unit
  | [] => .ok ()
  | op :: rest =>
    match op with
    | .InsertKeyValue _ _ _ => executeOpsCheck rest
    | .UpdateKeyValue _ _ _ _ => executeOpsCheck rest
    | .RemoveKeyValue _ _ => executeOpsCheck rest
    | .InitializeMapping _ => .error .InvalidFinalizeOpForExecute
    | .ReplaceMapping _ => .error .InvalidFinalizeOpForExecute
    | .RemoveMapping _ => .error .InvalidFinalizeOpForExecute

/-- `ConfirmedTransaction::accepted_execute(index, transaction, finalize_operations)`. -/
def accepted_execute (index : Nat) (transaction : Transaction)
    (finalize_operations : List FinalizeOperation) :
    Except CtError ConfirmedTransaction :=
  match executeOpsCheck finalize_operations with
  | .error e => .error e
  | .ok _ =>
    match transaction.is_execute with
    | true => .ok (.AcceptedExecute index transaction finalize_operations)
    | false => .error .WrongTransactionKind

/-- `ConfirmedTransaction::rejected_deploy(index, transaction, rejected)`. -/
def rejected_deploy (index : Nat) (transaction : Transaction) (rejected : Rejected) :
    Except CtError ConfirmedTransaction :=
  match rejected.is_deployment with
  | false => .error .RejectedKindMismatch
  | true =>
    match transaction.is_fee with
    | true => .ok (.RejectedDeploy index transaction rejected)
    | false => .error .WrongTransactionKind

/-- `ConfirmedTransaction::rejected_execute(index, transaction, rejected)`. -/
def rejected_execute (index : Nat) (transaction : Transaction) (rejected : Rejected) :
    Except CtError ConfirmedTransaction :=
  match rejected.is_execution with
  | false => .error .RejectedKindMismatch
  | true =>
    match transaction.is_fee with
    | true => .ok (.RejectedExecute index transaction rejected)
    | false => .error .WrongTransactionKind

/-- `ConfirmedTransaction::is_accepted()`. -/
def is_accepted : ConfirmedTransaction → Bool
  | .AcceptedDeploy _ _ _ => true
  | .AcceptedExecute _ _ _ => true
  | .RejectedDeploy _ _ _ => false
  | .RejectedExecute _ _ _ => false

/-- `ConfirmedTransaction::is_rejected()`. -/
def is_rejected (ct : ConfirmedTransaction) : Bool :=
  !ct.is_accepted

/-- `ConfirmedTransaction::index()`. -/
def index : ConfirmedTransaction → Nat
  | .AcceptedDeploy i _ _ => i
  | .AcceptedExecute i _ _ => i
  | .RejectedDeploy i _ _ => i
  | .RejectedExecute i _ _ => i

/-- `ConfirmedTransaction::transaction()`. -/
def transaction : ConfirmedTransaction → Transaction
  | .AcceptedDeploy _ tx _ => tx
  | .AcceptedExecute _ tx _ => tx
  | .RejectedDeploy _ tx _ => tx
  | .RejectedExecute _ tx _ => tx

/-- `ConfirmedTransaction::num_finalize()`. -/
def num_finalize : ConfirmedTransaction → Nat
  | .AcceptedDeploy _ _ finalize => finalize.length
  | .AcceptedExecute _ _ finalize => finalize.length
  | .RejectedDeploy _ _ _ => 0
  | .RejectedExecute _ _ _ => 0

/-- `ConfirmedTransaction::finalize_operations()`. -/
def finalize_operations : ConfirmedTransaction → Option (List FinalizeOperation)
  | .AcceptedDeploy _ _ finalize => some finalize
  | .AcceptedExecute _ _ finalize => some finalize
  | .RejectedDeploy _ _ _ => none
  | .RejectedExecute _ _ _ => none

/-- `ConfirmedTransaction::unconfirmed_id()`. -/
def unconfirmed_id : ConfirmedTransaction → Except CtError Nat
  | .AcceptedDeploy _ tx _ => .ok tx.id
  | .AcceptedExecute _ tx _ => .ok tx.id
  | .RejectedDeploy _ fee_transaction rejected =>
    .ok (rejected.to_unconfirmed_id fee_transaction.fee_transition)
  | .RejectedExecute _ fee_transaction rejected =>
    .ok (rejected.to_unconfirmed_id fee_transaction.fee_transition)

/-- `ConfirmedTransaction::unconfirmed_transaction()`. -/
def unconfirmed_transaction : ConfirmedTransaction → Except CtError Transaction
  | .AcceptedDeploy _ tx _ => .ok tx
  | .AcceptedExecute _ tx _ => .ok tx
  | .RejectedDeploy _ fee_transaction rejected =>
    match rejected.program_owner with
    | none => .error .MissingOwner
    | some program_owner =>
      match rejected.deployment with
      | none => .error .MissingDeployment
      | some rejected_deployment =>
        match fee_transaction.fee_transition with
        | none => .error .MissingFee
        | some fee =>
          .ok (Transaction.from_deployment program_owner rejected_deployment fee)
  | .RejectedExecute _ fee_transaction rejected =>
    match rejected.execution with
    | none => .error .MissingExecution
    | some rejected_execution =>
      .ok (Transaction.from_execution rejected_execution fee_transaction.fee_transition)

/-- The `Deref` impl of `ConfirmedTransaction`: `deref` returns the stored
transaction (`self.transaction()`). -/
def deref (ct : ConfirmedTransaction) : Transaction :=
  ct.transaction

end ConfirmedTransaction

/-- Modelled from the spec: `ConstraintSystem::new()` allocates the implicit
public `one` input, so the counters start at
`(num_constants, num_public, num_private, num_constraints) = (0, 1, 0, 0)`.
Only the counters are inspected by the code under verification. -/
structure ConstraintSystem where
  num_constants : Nat
  num_public : Nat
  num_private : Nat
  num_constraints : Nat
deriving DecidableEq, Repr

/-- Modelled from the spec: `ConstraintSystem::new()`. -/
def ConstraintSystem.new : ConstraintSystem :=
  { num_constants := 0, num_public := 1, num_private := 0, num_constraints := 0 }

/-- `CircuitScope`: a dotted name path plus a shared reference to a
`ConstraintSystem`. The `Rc<RefCell<ConstraintSystem>>` is modelled as an index
into the environment's store of systems, so two scopes alias the same system
exactly when their `systemId`s agree; the optional parent back-reference is
kept as the parent's path (lifetime bookkeeping only). -/
structure CircuitScope where
  systemId : Nat
  path : String
  parent : Option String
deriving DecidableEq, Repr

/-- Modelled from the spec: `CircuitScope::scope(sub_name)` returns a child
whose path is `self.path ++ "/" ++ sub_name` and whose system reference is
shared with `self`. -/
def CircuitScope.scope (s : CircuitScope) (name : String) : CircuitScope :=
  { systemId := s.systemId, path := s.path ++ "/" ++ name, parent := some s.path }

/-- The thread-local slot `CB` of `circuit.rs`, made explicit: the store of
all constraint systems ever created (shared mutable cells, addressed by
`CircuitScope.systemId`) and the ambient scope held in the slot. -/
structure CircuitEnv where
  systems : List ConstraintSystem
  slot : CircuitScope
deriving DecidableEq, Repr

namespace Circuit

/-- The state after `Circuit::cs()` first initializes the thread-local slot:
a fresh `ConstraintSystem` with a root scope named `"ConstraintSystem::new"`
and no parent. -/
def initEnv : CircuitEnv :=
  { systems := [ConstraintSystem.new],
    slot := { systemId := 0, path := "ConstraintSystem::new", parent := none } }

/-- `Circuit::cs()` on an initialized slot: the ambient scope. -/
def cs (env : CircuitEnv) : CircuitScope :=
  env.slot

/-- The constraint system the ambient scope aliases. -/
def currentSystem (env : CircuitEnv) : ConstraintSystem :=
  env.systems.getD env.slot.systemId ConstraintSystem.new

/-- `Circuit::num_constants()`. -/
def num_constants (env : CircuitEnv) : Nat :=
  (currentSystem env).num_constants

/-- `Circuit::num_public()`. -/
def num_public (env : CircuitEnv) : Nat :=
  (currentSystem env).num_public

/-- `Circuit::num_private()`. -/
def num_private (env : CircuitEnv) : Nat :=
  (currentSystem env).num_private

/-- `Circuit::num_constraints()`. -/
def num_constraints (env : CircuitEnv) : Nat :=
  (currentSystem env).num_constraints

/-- `Circuit::reset_circuit()`: replaces the slot's scope with a fresh root
scope over a brand-new `ConstraintSystem` (the new shared cell is appended to
the store; the old systems stay alive through any scopes still aliasing them). -/
def reset_circuit (env : CircuitEnv) : CircuitEnv :=
  { systems := env.systems ++ [ConstraintSystem.new],
    slot := { systemId := env.systems.length, path := "ConstraintSystem::new",
              parent := none } }

/-- `Circuit::scope(name)`: derives a child of the ambient scope, replaces the
slot with it, and returns it. -/
def scope (name : String) (env : CircuitEnv) : CircuitScope × CircuitEnv :=
  let s := (cs env).scope name
  (s, { env with slot := s })

/-- The observable behaviour of the user-supplied closure of
`Circuit::scoped`: it sees the child scope and the environment, and either
completes normally (`aborted = false`) or aborts (`aborted = true`, modelling
a Rust panic unwinding out of the closure). -/
def LogicFn : Type :=
  CircuitScope → CircuitEnv → CircuitEnv × Bool

/-- `Circuit::scoped(name, logic)`: fetches the current ambient scope, installs
the child named `name` as ambient, runs `logic` on the child, and then — only
on the normal-return path, exactly as in the source — writes the previous
scope back into the slot. When `logic` aborts, the unwind skips the restoring
assignment and the slot keeps whatever `logic` left there. The returned flag
propagates whether `logic` aborted. -/
def «scoped» (name : String) (logic : LogicFn) (env : CircuitEnv) :
    CircuitEnv × Bool :=
  let current := cs env
  let s := current.scope name
  let env1 := { env with slot := s }
  let run := logic s env1
  match run with
  | (env2, true) => (env2, true)
  | (env2, false) => ({ env2 with slot := current }, false)

end Circuit

/-- The `Inject` trait: a circuit type `C` with primitive type `P` and the
injection `new(mode, value)`. -/
class Inject (C : Type _) (P : outParam (Type _)) where
  new : Mode → P → C

/-- `Inject::constant(value)`: the trait's provided method, literally
`Self::new(Mode::Constant, value)`. -/
def Inject.constant {C P : Type _} [Inject C P] (value : P) : C :=
  Inject.new Mode.Constant value

/-- The `impl Inject for Vec<C>` lift: element-wise `C::new(mode, v)` over the
sequence, in order. -/
instance listInject {C P : Type _} [Inject C P] : Inject (List C) (List P) where
  new mode value := value.map (fun v => Inject.new mode v)

/-- A tiny concrete `Inject` instance used to instantiate the generic
container-lift theorems on concrete inputs: the circuit value records the mode
and the primitive. -/
structure BitCell where
  mode : Mode
  value : Bool
deriving DecidableEq, Repr

instance bitCellInject : Inject BitCell Bool where
  new mode value := { mode := mode, value := value }

/-! ## Helper predicates and lemmas -/

/-- The finalize-operation variants `accepted_deploy` accepts:
`InitializeMapping` and `UpdateKeyValue`. -/
def isDeployOp : FinalizeOperation → Bool
  | .InitializeMapping _ => true
  | .UpdateKeyValue _ _ _ _ => true
  | _ => false

/-- The finalize-operation variants `accepted_execute` accepts:
`InsertKeyValue`, `UpdateKeyValue`, `RemoveKeyValue`. -/
def isExecuteOp : FinalizeOperation → Bool
  | .InsertKeyValue _ _ _ => true
  | .UpdateKeyValue _ _ _ _ => true
  | .RemoveKeyValue _ _ => true
  | _ => false

/-- The `InitializeMapping` tag. -/
def isInitOp : FinalizeOperation → Bool
  | .InitializeMapping _ => true
  | _ => false

/-- The `UpdateKeyValue` tag. -/
def isUpdateOp : FinalizeOperation → Bool
  | .UpdateKeyValue _ _ _ _ => true
  | _ => false

namespace ConfirmedTransaction

theorem deployOpCounts_all (ops : List FinalizeOperation) :
    ∀ a b, ops.all isDeployOp = true →
      deployOpCounts a b ops =
        .ok (a + ops.countP isInitOp, b + ops.countP isUpdateOp) := by
  induction ops with
  | nil => intro a b _; simp [deployOpCounts]
  | cons op rest ih =>
    intro a b h
    rw [List.all_cons, Bool.and_eq_true] at h
    cases op with
    | InitializeMapping m =>
      simp only [deployOpCounts, ih (a + 1) b h.2, List.countP_cons, isInitOp,
        isUpdateOp, Except.ok.injEq, Prod.mk.injEq]
      constructor <;> simp <;> omega
    | UpdateKeyValue m i k v =>
      simp only [deployOpCounts, ih a (b + 1) h.2, List.countP_cons, isInitOp,
        isUpdateOp, Except.ok.injEq, Prod.mk.injEq]
      constructor <;> simp <;> omega
    | InsertKeyValue m k v => simp [isDeployOp] at h
    | RemoveKeyValue m i => simp [isDeployOp] at h
    | ReplaceMapping m => simp [isDeployOp] at h
    | RemoveMapping m => simp [isDeployOp] at h

theorem deployOpCounts_err (ops : List FinalizeOperation) :
    ∀ a b, ops.all isDeployOp = false →
      deployOpCounts a b ops = .error .InvalidFinalizeOpForDeploy := by
  induction ops with
  | nil => intro a b h; simp at h
  | cons op rest ih =>
    intro a b h
    rw [List.all_cons, Bool.and_eq_false_iff] at h
    cases op with
    | InitializeMapping m =>
      cases h with
      | inl h => simp [isDeployOp] at h
      | inr h => simpa [deployOpCounts] using ih (a + 1) b h
    | UpdateKeyValue m i k v =>
      cases h with
      | inl h => simp [isDeployOp] at h
      | inr h => simpa [deployOpCounts] using ih a (b + 1) h
    | InsertKeyValue m k v => simp [deployOpCounts]
    | RemoveKeyValue m i => simp [deployOpCounts]
    | ReplaceMapping m => simp [deployOpCounts]
    | RemoveMapping m => simp [deployOpCounts]

theorem deployOp_count_partition (ops : List FinalizeOperation)
    (h : ops.all isDeployOp = true) :
    ops.countP isInitOp + ops.countP isUpdateOp = ops.length := by
  induction ops with
  | nil => simp
  | cons op rest ih =>
    rw [List.all_cons, Bool.and_eq_true] at h
    have := ih h.2
    cases op <;> simp_all [List.countP_cons, isInitOp, isUpdateOp, isDeployOp] <;> omega

theorem executeOpsCheck_all (ops : List FinalizeOperation)
    (h : ops.all isExecuteOp = true) :
    executeOpsCheck ops = .ok () := by
  induction ops with
  | nil => simp [executeOpsCheck]
  | cons op rest ih =>
    rw [List.all_cons, Bool.and_eq_true] at h
    cases op <;> simp_all [executeOpsCheck, isExecuteOp]

theorem executeOpsCheck_err (ops : List FinalizeOperation)
    (h : ops.all isExecuteOp = false) :
    executeOpsCheck ops = .error .InvalidFinalizeOpForExecute := by
  induction ops with
  | nil => simp at h
  | cons op rest ih =>
    rw [List.all_cons, Bool.and_eq_false_iff] at h
    cases op with
    | InsertKeyValue m k v =>
      cases h with
      | inl h => simp [isExecuteOp] at h
      | inr h => simpa [executeOpsCheck] using ih h
    | UpdateKeyValue m i k v =>
      cases h with
      | inl h => simp [isExecuteOp] at h
      | inr h => simpa [executeOpsCheck] using ih h
    | RemoveKeyValue m i =>
      cases h with
      | inl h => simp [isExecuteOp] at h
      | inr h => simpa [executeOpsCheck] using ih h
    | InitializeMapping m => simp [executeOpsCheck]
    | ReplaceMapping m => simp [executeOpsCheck]
    | RemoveMapping m => simp [executeOpsCheck]

end ConfirmedTransaction

/-! ## Claim theorems -/

/-- C5: for every accepted confirmation (`AcceptedDeploy` or
`AcceptedExecute`), `unconfirmed_id()` returns `Ok` of the stored
transaction's id verbatim and `unconfirmed_transaction()` returns `Ok` of the
stored transaction verbatim; neither call fails on an accepted variant. -/
theorem C5_accepted_unconfirmed_verbatim (ct : ConfirmedTransaction)
    (h : ct.is_accepted = true) :
    ct.unconfirmed_id = Except.ok ct.transaction.id ∧
    ct.unconfirmed_transaction = Except.ok ct.transaction := by
  cases ct <;>
    simp_all [ConfirmedTransaction.is_accepted, ConfirmedTransaction.unconfirmed_id,
      ConfirmedTransaction.unconfirmed_transaction, ConfirmedTransaction.transaction]

/-- Witness for C5 at a concrete accepted confirmation. -/
theorem C5_accepted_unconfirmed_verbatim_witness :
    (ConfirmedTransaction.AcceptedDeploy 0 (Transaction.Fee 7 ⟨3, true⟩)
        []).unconfirmed_id =
      Except.ok (ConfirmedTransaction.AcceptedDeploy 0 (Transaction.Fee 7 ⟨3, true⟩)
        []).transaction.id ∧
    (ConfirmedTransaction.AcceptedDeploy 0 (Transaction.Fee 7 ⟨3, true⟩)
        []).unconfirmed_transaction =
      Except.ok (ConfirmedTransaction.AcceptedDeploy 0 (Transaction.Fee 7 ⟨3, true⟩)
        []).transaction :=
  C5_accepted_unconfirmed_verbatim
    (ConfirmedTransaction.AcceptedDeploy 0 (Transaction.Fee 7 ⟨3, true⟩) []) rfl

/-- C6: `num_finalize()` equals the length of the stored finalize-operations
list on accepted variants and `0` on rejected variants, and
`finalize_operations()` returns `Some` of the stored list exactly on accepted
variants (`None` on both rejected variants). -/
theorem C6_num_finalize_and_finalize_operations :
    (∀ i tx ops,
      (ConfirmedTransaction.AcceptedDeploy i tx ops).num_finalize = ops.length ∧
      (ConfirmedTransaction.AcceptedExecute i tx ops).num_finalize = ops.length ∧
      (ConfirmedTransaction.AcceptedDeploy i tx ops).finalize_operations = some ops ∧
      (ConfirmedTransaction.AcceptedExecute i tx ops).finalize_operations = some ops) ∧
    (∀ i tx rej,
      (ConfirmedTransaction.RejectedDeploy i tx rej).num_finalize = 0 ∧
      (ConfirmedTransaction.RejectedExecute i tx rej).num_finalize = 0 ∧
      (ConfirmedTransaction.RejectedDeploy i tx rej).finalize_operations = none ∧
      (ConfirmedTransaction.RejectedExecute i tx rej).finalize_operations = none) ∧
    (∀ ct : ConfirmedTransaction,
      ct.finalize_operations.isSome = ct.is_accepted) := by
  refine ⟨fun i tx ops => ⟨rfl, rfl, rfl, rfl⟩, fun i tx rej => ⟨rfl, rfl, rfl, rfl⟩,
    fun ct => ?_⟩
  cases ct <;> rfl

/-- C10: dereferencing a `ConfirmedTransaction` yields exactly the stored
transaction (`ct.transaction()`); for rejected variants the stored transaction
is the fee transaction the variant was built from, and any confirmation
produced by `rejected_deploy`/`rejected_execute` stores a fee-only
transaction. -/
theorem C10_deref_is_stored_transaction :
    (∀ ct : ConfirmedTransaction, ct.deref = ct.transaction) ∧
    (∀ i tx rej,
      (ConfirmedTransaction.RejectedDeploy i tx rej).deref = tx ∧
      (ConfirmedTransaction.RejectedExecute i tx rej).deref = tx) ∧
    (∀ i tx rej ct, ConfirmedTransaction.rejected_deploy i tx rej = .ok ct →
      ct.deref.is_fee = true) ∧
    (∀ i tx rej ct, ConfirmedTransaction.rejected_execute i tx rej = .ok ct →
      ct.deref.is_fee = true) := by
  refine ⟨fun ct => rfl, fun i tx rej => ⟨rfl, rfl⟩, fun i tx rej ct h => ?_,
    fun i tx rej ct h => ?_⟩
  · unfold ConfirmedTransaction.rejected_deploy at h
    cases hd : Rejected.is_deployment rej <;> cases hf : Transaction.is_fee tx <;>
      simp_all <;> subst h <;>
      simp_all [ConfirmedTransaction.deref, ConfirmedTransaction.transaction]
  · unfold ConfirmedTransaction.rejected_execute at h
    cases he : Rejected.is_execution rej <;> cases hf : Transaction.is_fee tx <;>
      simp_all <;> subst h <;>
      simp_all [ConfirmedTransaction.deref, ConfirmedTransaction.transaction]

/-- C4: `accepted_execute(index, tx, finalize_ops)` returns `Ok` exactly when
every element of `finalize_ops` is one of `InsertKeyValue`, `UpdateKeyValue`,
`RemoveKeyValue` and `tx.is_execute()` holds; a `*Mapping` element fails
`InvalidFinalizeOpForExecute` (checked before the transaction kind), and a
non-execute transaction fails `WrongTransactionKind`. -/
theorem C4_accepted_execute_contract (i : Nat) (tx : Transaction)
    (ops : List FinalizeOperation) :
    (ConfirmedTransaction.accepted_execute i tx ops =
        .ok (.AcceptedExecute i tx ops) ↔
      ops.all isExecuteOp = true ∧ tx.is_execute = true) ∧
    (ops.all isExecuteOp = false →
      ConfirmedTransaction.accepted_execute i tx ops =
        .error .InvalidFinalizeOpForExecute) ∧
    (ops.all isExecuteOp = true → tx.is_execute = false →
      ConfirmedTransaction.accepted_execute i tx ops =
        .error .WrongTransactionKind) ∧
    (∀ ct, ConfirmedTransaction.accepted_execute i tx ops = .ok ct →
      ct = .AcceptedExecute i tx ops) := by
  cases hall : ops.all isExecuteOp with
  | false =>
    have hchk := ConfirmedTransaction.executeOpsCheck_err ops hall
    simp [ConfirmedTransaction.accepted_execute, hchk]
  | true =>
    have hchk := ConfirmedTransaction.executeOpsCheck_all ops hall
    cases hex : tx.is_execute <;>
      simp [ConfirmedTransaction.accepted_execute, hchk, hex]

/-- Witness for C4 at concrete inputs: an execute transaction with a valid
operation list is accepted verbatim. -/
theorem C4_accepted_execute_contract_witness :
    ConfirmedTransaction.accepted_execute 42 (Transaction.Execute 1 ⟨2⟩ none)
        [FinalizeOperation.InsertKeyValue 0 1 2] =
      .ok (.AcceptedExecute 42 (Transaction.Execute 1 ⟨2⟩ none)
        [FinalizeOperation.InsertKeyValue 0 1 2]) :=
  ((C4_accepted_execute_contract 42 (Transaction.Execute 1 ⟨2⟩ none)
      [FinalizeOperation.InsertKeyValue 0 1 2]).1).2 ⟨rfl, rfl⟩

/-- C1: `accepted_deploy(index, tx, finalize_ops)` returns `Ok` exactly when
`tx` is a deploy transaction (else `WrongTransactionKind`), its fee transition
exists (else `MissingFee`), every operation is `InitializeMapping` or
`UpdateKeyValue` (else `InvalidFinalizeOpForDeploy`), the `InitializeMapping`
count equals the deployed program's mapping count (else
`MappingCountMismatch`), and the `UpdateKeyValue` count equals 1 for a public
fee and 0 otherwise — the two counts then summing to the list's length (else
`FinalizeShapeMismatch`); the checks apply in that order. -/
theorem C1_accepted_deploy_contract (i : Nat) (tx : Transaction)
    (ops : List FinalizeOperation) :
    (tx.is_deploy = false →
      ConfirmedTransaction.accepted_deploy i tx ops =
        .error .WrongTransactionKind) ∧
    (tx.is_deploy = true → tx.fee_transition = none →
      ConfirmedTransaction.accepted_deploy i tx ops = .error .MissingFee) ∧
    (∀ fee, tx.is_deploy = true → tx.fee_transition = some fee →
      ops.all isDeployOp = false →
      ConfirmedTransaction.accepted_deploy i tx ops =
        .error .InvalidFinalizeOpForDeploy) ∧
    (∀ fee p, tx.fee_transition = some fee → tx.deployed_program = some p →
      ops.all isDeployOp = true →
      p.mappings.length ≠ ops.countP isInitOp →
      ConfirmedTransaction.accepted_deploy i tx ops =
        .error .MappingCountMismatch) ∧
    (∀ fee p, tx.fee_transition = some fee → tx.deployed_program = some p →
      ops.all isDeployOp = true →
      p.mappings.length = ops.countP isInitOp →
      ops.countP isUpdateOp ≠ (if fee.is_fee_public then 1 else 0) →
      ConfirmedTransaction.accepted_deploy i tx ops =
        .error .FinalizeShapeMismatch) ∧
    (∀ fee p, tx.fee_transition = some fee → tx.deployed_program = some p →
      (ConfirmedTransaction.accepted_deploy i tx ops =
          .ok (.AcceptedDeploy i tx ops) ↔
        ops.all isDeployOp = true ∧
        ops.countP isInitOp = p.mappings.length ∧
        ops.countP isUpdateOp = (if fee.is_fee_public then 1 else 0))) ∧
    (ops.all isDeployOp = true →
      ops.countP isInitOp + ops.countP isUpdateOp = ops.length) ∧
    (∀ ct, ConfirmedTransaction.accepted_deploy i tx ops = .ok ct →
      ct = .AcceptedDeploy i tx ops ∧ tx.is_deploy = true ∧
      tx.fee_transition.isSome = true ∧ ops.all isDeployOp = true) := by
  cases tx with
  | Execute txid e f =>
    refine ⟨fun _ => rfl, fun h _ => by simp [Transaction.is_deploy] at h,
      fun fee h _ _ => by simp [Transaction.is_deploy] at h,
      fun fee p _ hp _ _ => by simp [Transaction.deployed_program] at hp,
      fun fee p _ hp _ _ _ => by simp [Transaction.deployed_program] at hp,
      fun fee p _ hp => by simp [Transaction.deployed_program] at hp,
      fun h => ConfirmedTransaction.deployOp_count_partition ops h,
      fun ct h => by simp [ConfirmedTransaction.accepted_deploy] at h⟩
  | Fee txid f =>
    refine ⟨fun _ => rfl, fun h _ => by simp [Transaction.is_deploy] at h,
      fun fee h _ _ => by simp [Transaction.is_deploy] at h,
      fun fee p _ hp _ _ => by simp [Transaction.deployed_program] at hp,
      fun fee p _ hp _ _ _ => by simp [Transaction.deployed_program] at hp,
      fun fee p _ hp => by simp [Transaction.deployed_program] at hp,
      fun h => ConfirmedTransaction.deployOp_count_partition ops h,
      fun ct h => by simp [ConfirmedTransaction.accepted_deploy] at h⟩
  | Deploy txid owner dep feeOpt =>
    cases feeOpt with
    | none =>
      refine ⟨fun h => by simp [Transaction.is_deploy] at h,
        fun _ _ => rfl,
        fun fee _ hf _ => by simp [Transaction.fee_transition] at hf,
        fun fee p hf _ _ _ => by simp [Transaction.fee_transition] at hf,
        fun fee p hf _ _ _ _ => by simp [Transaction.fee_transition] at hf,
        fun fee p hf _ => by simp [Transaction.fee_transition] at hf,
        fun h => ConfirmedTransaction.deployOp_count_partition ops h,
        fun ct h => by
          simp [ConfirmedTransaction.accepted_deploy, Transaction.fee_transition] at h⟩
    | some fee =>
      cases hall : ops.all isDeployOp with
      | false =>
        have hcnt := ConfirmedTransaction.deployOpCounts_err ops 0 0 hall
        have hres : ConfirmedTransaction.accepted_deploy i
            (.Deploy txid owner dep (some fee)) ops =
            .error .InvalidFinalizeOpForDeploy := by
          simp [ConfirmedTransaction.accepted_deploy, Transaction.fee_transition, hcnt]
        refine ⟨fun h => by simp [Transaction.is_deploy] at h,
          fun _ h => by simp [Transaction.fee_transition] at h,
          fun _ _ _ _ => hres,
          fun _ _ _ _ h _ => by simp at h,
          fun _ _ _ _ h _ _ => by simp at h,
          fun fee' p hf hp => ?_,
          fun h => by simp at h,
          fun ct h => by rw [hres] at h; exact absurd h (by simp)⟩
        rw [hres]
        constructor
        · intro h; exact absurd h (by simp)
        · rintro ⟨h, -⟩; simp at h
      | true =>
        have hcnt := ConfirmedTransaction.deployOpCounts_all ops 0 0 hall
        rw [Nat.zero_add, Nat.zero_add] at hcnt
        have hpart := ConfirmedTransaction.deployOp_count_partition ops hall
        have hres : ConfirmedTransaction.accepted_deploy i
            (.Deploy txid owner dep (some fee)) ops =
            (if dep.program.mappings.length ≠ ops.countP isInitOp then
              .error .MappingCountMismatch
            else if ops.countP isUpdateOp ≠ (if fee.is_fee_public then 1 else 0) ∨
                ops.countP isInitOp + ops.countP isUpdateOp ≠ ops.length then
              .error .FinalizeShapeMismatch
            else .ok (.AcceptedDeploy i (.Deploy txid owner dep (some fee)) ops)) := by
          simp only [ConfirmedTransaction.accepted_deploy, Transaction.fee_transition, hcnt]
        refine ⟨fun h => by simp [Transaction.is_deploy] at h,
          fun _ h => by simp [Transaction.fee_transition] at h,
          fun _ _ _ h => by simp at h,
          fun fee' p hf hp _ hne => ?_,
          fun fee' p hf hp _ heq hne => ?_,
          fun fee' p hf hp => ?_,
          fun _ => hpart,
          fun ct h => ?_⟩
        · have hfe : fee = fee' := by
            simpa [Transaction.fee_transition] using hf
          subst hfe
          have hpe : dep.program = p := by
            simpa [Transaction.deployed_program] using hp
          subst hpe
          rw [hres, if_pos hne]
        · have hfe : fee = fee' := by
            simpa [Transaction.fee_transition] using hf
          subst hfe
          have hpe : dep.program = p := by
            simpa [Transaction.deployed_program] using hp
          subst hpe
          rw [hres, if_neg (by omega), if_pos (Or.inl hne)]
        · have hfe : fee = fee' := by
            simpa [Transaction.fee_transition] using hf
          subst hfe
          have hpe : dep.program = p := by
            simpa [Transaction.deployed_program] using hp
          subst hpe
          rw [hres]
          constructor
          · intro h
            by_cases h1 : dep.program.mappings.length ≠ ops.countP isInitOp
            · rw [if_pos h1] at h; exact absurd h (by simp)
            · rw [if_neg h1] at h
              by_cases h2 : ops.countP isUpdateOp ≠
                  (if fee.is_fee_public then 1 else 0) ∨
                  ops.countP isInitOp + ops.countP isUpdateOp ≠ ops.length
              · rw [if_pos h2] at h; exact absurd h (by simp)
              · push_neg at h1 h2
                exact ⟨rfl, h1.symm, h2.1⟩
          · rintro ⟨-, h1, h2⟩
            rw [if_neg (by omega), if_neg (by omega)]
        · rw [hres] at h
          by_cases h1 : dep.program.mappings.length ≠ ops.countP isInitOp
          · rw [if_pos h1] at h; exact absurd h (by simp)
          · rw [if_neg h1] at h
            by_cases h2 : ops.countP isUpdateOp ≠
                (if fee.is_fee_public then 1 else 0) ∨
                ops.countP isInitOp + ops.countP isUpdateOp ≠ ops.length
            · rw [if_pos h2] at h; exact absurd h (by simp)
            · rw [if_neg h2] at h
              refine ⟨by injection h with h'; exact h'.symm, rfl, rfl, rfl⟩

/-- Witness for C1 at concrete inputs: a deploy whose program declares one
mapping, with a public fee, one `InitializeMapping` and one `UpdateKeyValue`
operation, is accepted. -/
theorem C1_accepted_deploy_contract_witness :
    ConfirmedTransaction.accepted_deploy 0
        (Transaction.Deploy 1 ⟨2⟩ ⟨⟨[9]⟩⟩ (some ⟨3, true⟩))
        [FinalizeOperation.InitializeMapping 4,
         FinalizeOperation.UpdateKeyValue 4 0 5 6] =
      .ok (.AcceptedDeploy 0 (Transaction.Deploy 1 ⟨2⟩ ⟨⟨[9]⟩⟩ (some ⟨3, true⟩))
        [FinalizeOperation.InitializeMapping 4,
         FinalizeOperation.UpdateKeyValue 4 0 5 6]) :=
  (((((((C1_accepted_deploy_contract 0
      (Transaction.Deploy 1 ⟨2⟩ ⟨⟨[9]⟩⟩ (some ⟨3, true⟩))
      [FinalizeOperation.InitializeMapping 4,
       FinalizeOperation.UpdateKeyValue 4 0 5 6]).2).2).2).2).2).1
    ⟨3, true⟩ ⟨[9]⟩ rfl rfl).2 ⟨rfl, rfl, rfl⟩

/-- C3 counterexample: the claim asserts every missing component fails with
its own `Missing*` error for both rejected variants, but (a) a record whose
deployment is missing (an `Execution`-variant record under `RejectedDeploy`)
fails `MissingOwner`, since the owner check runs first, and (b) a missing fee
transition on the stored transaction of a `RejectedExecute` does not fail at
all: the optional fee is passed through to `from_execution` and the call
returns `Ok`. -/
theorem C3_rejected_missing_components_cex :
    (Transaction.Execute 0 ⟨3⟩ none).fee_transition = none ∧
    (ConfirmedTransaction.RejectedExecute 0 (Transaction.Execute 0 ⟨3⟩ none)
        (Rejected.Execution ⟨3⟩)).unconfirmed_transaction =
      Except.ok (Transaction.from_execution ⟨3⟩ none) ∧
    (Rejected.Execution ⟨5⟩).deployment = none ∧
    (ConfirmedTransaction.RejectedDeploy 0 (Transaction.Fee 1 ⟨2, true⟩)
        (Rejected.Execution ⟨5⟩)).unconfirmed_transaction =
      Except.error CtError.MissingOwner :=
  ⟨rfl, rfl, rfl, rfl⟩

/-- C3 (amended): on `RejectedDeploy`, `unconfirmed_transaction` checks the
program owner, then the deployment, then the fee transition, so an
`Execution`-variant record fails `MissingOwner` and a `Deployment`-variant
record with a missing fee transition fails the missing-fee error; on
`RejectedExecute` a record without an execution fails `MissingExecution`,
and the (possibly missing) fee transition is passed through to
`from_execution` without any missing-fee check. -/
theorem C3_rejected_missing_components (i : Nat) (feeTx : Transaction)
    (rej : Rejected) :
    (rej.program_owner = none →
      (ConfirmedTransaction.RejectedDeploy i feeTx rej).unconfirmed_transaction =
        .error .MissingOwner) ∧
    (∀ o d, rej = .Deployment o d → feeTx.fee_transition = none →
      (ConfirmedTransaction.RejectedDeploy i feeTx rej).unconfirmed_transaction =
        .error .MissingFee) ∧
    (∀ o d, rej = .Deployment o d → ∀ fee, feeTx.fee_transition = some fee →
      (ConfirmedTransaction.RejectedDeploy i feeTx rej).unconfirmed_transaction =
        .ok (Transaction.from_deployment o d fee)) ∧
    (rej.execution = none →
      (ConfirmedTransaction.RejectedExecute i feeTx rej).unconfirmed_transaction =
        .error .MissingExecution) ∧
    (∀ e, rej = .Execution e →
      (ConfirmedTransaction.RejectedExecute i feeTx rej).unconfirmed_transaction =
        .ok (Transaction.from_execution e feeTx.fee_transition)) := by
  cases rej with
  | Deployment o d =>
    refine ⟨fun h => by simp [Rejected.program_owner] at h,
      fun o' d' h hf => ?_, fun o' d' h fee hf => ?_,
      fun _ => rfl, fun e h => by simp at h⟩
    · cases h
      simp [ConfirmedTransaction.unconfirmed_transaction, Rejected.program_owner,
        Rejected.deployment, hf]
    · cases h
      simp [ConfirmedTransaction.unconfirmed_transaction, Rejected.program_owner,
        Rejected.deployment, hf]
  | Execution e =>
    refine ⟨fun _ => rfl, fun o' d' h => by simp at h, fun o' d' h => by simp at h,
      fun h => by simp [Rejected.execution] at h, fun e' h => ?_⟩
    cases h
    simp [ConfirmedTransaction.unconfirmed_transaction, Rejected.execution]

/-- Witness for C3 (amended) at concrete inputs. -/
theorem C3_rejected_missing_components_witness :
    (ConfirmedTransaction.RejectedDeploy 2 (Transaction.Fee 1 ⟨2, true⟩)
        (Rejected.Execution ⟨5⟩)).unconfirmed_transaction =
      Except.error CtError.MissingOwner :=
  (C3_rejected_missing_components 2 (Transaction.Fee 1 ⟨2, true⟩)
    (Rejected.Execution ⟨5⟩)).1 rfl

/-- A closure that aborts immediately (models a Rust panic inside the user
logic of `Circuit::scoped`). -/
def abortingLogic : Circuit.LogicFn := fun _ env => (env, true)

/-- A closure that completes normally without touching the environment. -/
def idLogic : Circuit.LogicFn := fun _ env => (env, false)

/-- C2 counterexample: when the logic aborts, `scoped` does not restore the
prior ambient scope — the slot still holds the child scope (path
`"ConstraintSystem::new/gadget"`), not the root, because the restoring
assignment sits on the normal-return path only. -/
theorem C2_scoped_restore_cex :
    (Circuit.«scoped» "gadget" abortingLogic Circuit.initEnv).1.slot ≠
      Circuit.initEnv.slot := by
  decide

/-- C2 (amended): `scoped(name, logic)` snapshots the ambient scope, installs
the child named `name` as ambient and runs `logic` on it; when `logic`
completes normally the prior ambient scope is written back (so the ambient
after the call equals the ambient before it, whatever `logic` did to the
slot), but when `logic` aborts the restore is skipped and the environment is
left exactly as `logic` left it, with the child (or whatever `logic`
installed) still ambient. -/
theorem C2_scoped_restores_ambient (name : String) (logic : Circuit.LogicFn)
    (env : CircuitEnv) :
    (∀ env2, logic ((Circuit.cs env).scope name)
        { env with slot := (Circuit.cs env).scope name } = (env2, false) →
      Circuit.«scoped» name logic env = ({ env2 with slot := env.slot }, false)) ∧
    (∀ env2, logic ((Circuit.cs env).scope name)
        { env with slot := (Circuit.cs env).scope name } = (env2, true) →
      Circuit.«scoped» name logic env = (env2, true)) ∧
    ((logic ((Circuit.cs env).scope name)
        { env with slot := (Circuit.cs env).scope name }).2 = false →
      (Circuit.«scoped» name logic env).1.slot = env.slot) := by
  refine ⟨fun env2 h => ?_, fun env2 h => ?_, fun h => ?_⟩
  · simp only [Circuit.cs] at h
    simp [Circuit.«scoped», Circuit.cs, h]
  · simp only [Circuit.cs] at h
    simp [Circuit.«scoped», Circuit.cs, h]
  · rcases hrun : logic ((Circuit.cs env).scope name)
        { env with slot := (Circuit.cs env).scope name } with ⟨env2, aborted⟩
    rw [hrun] at h
    simp at h
    subst h
    simp only [Circuit.cs] at hrun
    simp [Circuit.«scoped», Circuit.cs, hrun]

/-- Witness for C2 (amended): a normally-completing logic has the root scope
restored as ambient. -/
theorem C2_scoped_restores_ambient_witness :
    Circuit.«scoped» "w" idLogic Circuit.initEnv =
      ({ { Circuit.initEnv with
            slot := (Circuit.cs Circuit.initEnv).scope "w" } with
          slot := Circuit.initEnv.slot }, false) :=
  (C2_scoped_restores_ambient "w" idLogic Circuit.initEnv).1
    { Circuit.initEnv with slot := (Circuit.cs Circuit.initEnv).scope "w" } rfl

/-- C7: after `reset_circuit()` the environment's counters are
`(num_constants, num_public, num_private, num_constraints) = (0, 1, 0, 0)`:
the slot holds a fresh root scope (root path, no parent, a brand-new system)
over a constraint system whose only allocation is the implicit public one
input. -/
theorem C7_reset_circuit_counters (env : CircuitEnv) :
    Circuit.num_constants (Circuit.reset_circuit env) = 0 ∧
    Circuit.num_public (Circuit.reset_circuit env) = 1 ∧
    Circuit.num_private (Circuit.reset_circuit env) = 0 ∧
    Circuit.num_constraints (Circuit.reset_circuit env) = 0 ∧
    (Circuit.reset_circuit env).slot.path = "ConstraintSystem::new" ∧
    (Circuit.reset_circuit env).slot.parent = none ∧
    Circuit.currentSystem (Circuit.reset_circuit env) = ConstraintSystem.new := by
  have hsys : Circuit.currentSystem (Circuit.reset_circuit env) =
      ConstraintSystem.new := by
    simp [Circuit.currentSystem, Circuit.reset_circuit,
      List.getD_eq_getElem?_getD, List.getElem?_concat_length]
  refine ⟨?_, ?_, ?_, ?_, rfl, rfl, hsys⟩ <;>
    simp [Circuit.num_constants, Circuit.num_public, Circuit.num_private,
      Circuit.num_constraints, hsys, ConstraintSystem.new]

/-- C8: `Inject::constant(value)` equals `Inject::new(Mode::Constant, value)`
for every implementing type and every primitive value — the provided method is
definitionally that call. -/
theorem C8_constant_is_new_constant_mode {C P : Type} [Inject C P] (value : P) :
    (Inject.constant value : C) = Inject.new Mode.Constant value :=
  rfl

/-- C9: the `Vec` lift of `Inject` maps element-wise, preserves order and
length, and propagates the same mode to every element: the lifted list has the
primitive list's length and its i-th element is `new(mode, v[i])`. -/
theorem C9_list_lift_elementwise {C P : Type} [Inject C P] (mode : Mode)
    (v : List P) :
    (Inject.new mode v : List C).length = v.length ∧
    (∀ i : Nat, (Inject.new mode v : List C)[i]? =
      (v[i]?).map (fun p => (Inject.new mode p : C))) := by
  refine ⟨?_, fun i => ?_⟩
  · show (v.map fun p => (Inject.new mode p : C)).length = v.length
    simp
  · show (v.map fun p => (Inject.new mode p : C))[i]? = _
    simp

/-- Concrete evaluation of the list lift on the tiny `BitCell` instance: the
mode is propagated to every element and order is preserved. -/
theorem bitCell_list_lift_eval :
    (Inject.new Mode.Public [true, false] : List BitCell) =
      [⟨Mode.Public, true⟩, ⟨Mode.Public, false⟩] :=
  rfl

end SnarkVM
